import Mathlib

/-!
# RDTSC input scheduler: calibration and wait engine

A shallow embedding of `RDTSCInputScheduler.cpp` and `RDTSCPInputScheduler.h`.

* `unsigned __int64` values are natural numbers, every operation on them is
  reduced modulo `2 ^ 64` explicitly (`add64`, `sub64`, `mul64`).
* `double` values are rationals and every `double` operation is rounded to
  binary64 (`binary64`: nearest, ties to even, 53 significant bits), as are
  the conversions of 64-bit integers to `double`.
* What the operating system and the cycle counter return is an input of the
  model (`Host`): the result of `QueryPerformanceFrequency`, the readings of
  the three frequency trials and the pair of `__rdtsc()` readings of every
  calibration batch.
* The globals and the sequence of calls made so far form the program state
  (`State`), passed explicitly.
-/

namespace RDTSC

/-! ## Unsigned 64-bit arithmetic -/

/-- Number of values of an `unsigned __int64`. -/
def U64 : Nat := 2 ^ 64

/-- Sum of two `unsigned __int64`, as in `tot += d`. -/
def add64 (a b : Nat) : Nat := (a + b) % U64

/-- Difference of two `unsigned __int64`, as in `e - s`. -/
def sub64 (a b : Nat) : Nat := (a % U64 + (U64 - b % U64)) % U64

/-- Product of two `unsigned __int64`, as in `wt * gCyclesPerNanosecond`. -/
def mul64 (a b : Nat) : Nat := (a * b) % U64

/-- The loop `for (int i = 0; i < n; i++) body`, on an explicit loop state. -/
def forLoop {σ : Type} (n : Nat) (body : Nat → σ → σ) (init : σ) : σ :=
  (List.range n).foldl (fun acc i => body i acc) init

/-! ## Program state -/

/-- The three globals of `RDTSCPInputScheduler.h`. -/
structure Globals where
  gCyclesPerNanosecond : Nat
  gSyscallOverheadCycles : Nat
  gJitterCompensationCycles : Nat
deriving DecidableEq

/-- The header initialises the three globals to `0`. -/
def Globals.atStart : Globals := ⟨0, 0, 0⟩

/-- Calls the program makes, in program order. A call of
`RDTSCInputSchedulerWait` is recorded with the globals it finds. -/
inductive Call where
  | MessageBoxA
  | frequencyTrials
  | calibrateSyscallOverheadBatched
  | calibrateJitterCompensationBatched
  | RDTSCInputSchedulerWait (nanoseconds : Nat) (g : Globals)
  | SimulateKey (vk : Nat)
deriving DecidableEq

/-- Globals and the calls made so far. -/
structure State where
  g : Globals
  calls : List Call
deriving DecidableEq

/-- Appends one call to the record. -/
def State.log (st : State) (c : Call) : State :=
  { st with calls := st.calls ++ [c] }

/-! ## Inputs from the host -/

/-- The two `__rdtsc()` readings that bracket one batch: `s` before the ten
calls, `e` after them. -/
structure Reads where
  s : Nat
  e : Nat
deriving DecidableEq

/-- The four readings of one frequency trial: `QueryPerformanceCounter`
before (`sp`) and after (`ep`), `__rdtsc()` before (`tStart`) and after
(`tEnd`) the `Sleep(50)`. -/
structure Trial where
  sp : Int
  tStart : Nat
  tEnd : Nat
  ep : Int
deriving DecidableEq

/-- Everything the program reads from its host. `qpf` is `none` when
`QueryPerformanceFrequency` returns `FALSE`, and `some freq.QuadPart`
otherwise; the three functions give the readings of iteration `i` of the
trial loop, of the syscall calibrator and of the jitter calibrator. -/
structure Host where
  qpf : Option Int
  trial : Nat → Trial
  sendInputBatch : Nat → Reads
  waitBatch : Nat → Reads

/-! ## The calibrators (`RDTSCInputScheduler.cpp`) -/

/-- A call `RDTSCInputSchedulerWait(ns)` seen from the program: the routine
writes no global, the call is recorded with the globals it reads. -/
def invokeWait (ns : Nat) (st : State) : State :=
  st.log (Call.RDTSCInputSchedulerWait ns st.g)

/-- Embeds `calibrateSyscallOverheadBatched` (lines 17-28): `rd i` is the pair
of readings around the ten `SendInput(0, nullptr, 0)` calls of iteration `i`. -/
def calibrateSyscallOverheadBatched (rd : Nat → Reads) : Nat :=
  let bs := 10
  let its := 50
  let tot := forLoop its (fun i tot =>
    let s := (rd i).s
    let e := (rd i).e
    add64 tot (sub64 e s)) 0
  tot / (its * bs)

/-- One iteration of the loop of `calibrateJitterCompensationBatched`
(lines 36-43) on the pair (`totOver`, program state). -/
def jitterBatch (rd : Nat → Reads) (i : Nat) (acc : Nat × State) : Nat × State :=
  let bs := 10
  let wt := 200
  let s := (rd i).s
  let st := forLoop bs (fun _ st => invokeWait wt st) acc.2
  let e := (rd i).e
  let measured := sub64 e s
  let expected := mul64 (mul64 wt st.g.gCyclesPerNanosecond) bs
  if measured > expected then (add64 acc.1 (sub64 measured expected), st)
  else (acc.1, st)

/-- Embeds `calibrateJitterCompensationBatched` (lines 31-46): returns the
value and the state after the 500 calls of `RDTSCInputSchedulerWait(200)`. -/
def calibrateJitterCompensationBatched (rd : Nat → Reads) (st : State) : Nat × State :=
  let bs := 10
  let its := 50
  let totCalls := its * bs
  let r := forLoop its (jitterBatch rd) (0, st)
  (r.1 / totCalls, r.2)

/-! ### Binary64 arithmetic -/

/-- Rounds a rational to the nearest integer, ties to the even one. -/
def roundHalfEven (r : ℚ) : Int :=
  let n := ⌊r⌋
  let frac := r - n
  if frac < 1 / 2 then n
  else if 1 / 2 < frac then n + 1
  else if n % 2 = 0 then n else n + 1

/-- Binary logarithm of `n`, rounded down, by repeated halving; `fuel` bounds
the number of halvings. -/
def log2Fuel : Nat → Nat → Nat
  | 0, _ => 0
  | fuel + 1, n => if n < 2 then 0 else log2Fuel fuel (n / 2) + 1

/-- Binary logarithm of `n ≥ 1`, rounded down. -/
def ilog2 (n : Nat) : Nat := log2Fuel n n

/-- The exponent `e` with `2 ^ e ≤ |q| < 2 ^ (e + 1)`, for `q ≠ 0`: the
difference of the logarithms of numerator and denominator, or one less. -/
def binade (q : ℚ) : Int :=
  let e0 : Int := (ilog2 q.num.natAbs : Int) - (ilog2 q.den : Int)
  if (2 : ℚ) ^ e0 ≤ |q| then e0 else e0 - 1

/-- The `double` nearest to `q`: `q` is rounded to a multiple of
`2 ^ (e - 52)`, `e` its exponent, ties to the even multiple, which leaves 53
significant bits. This is the IEEE 754 binary64 rounding of the `double`
operations and of the integer conversions whenever the result is `0` or has
a magnitude from `2 ^ (-1022)` to below `2 ^ 1024`; IEEE subnormal numbers and
infinities are not represented. The values rounded in the trial loop are `0`
or lie between `2 ^ (-200)` and `2 ^ 200` when `freq.QuadPart` and the
reference-clock deltas are positive 64-bit integers. -/
def binary64 (q : ℚ) : ℚ :=
  if q = 0 then 0
  else
    let e := binade q
    let ulp : ℚ := 2 ^ (e - 52)
    (roundHalfEven (q / ulp) : ℚ) * ulp

/-- Conversion `(unsigned __int64) x` of a `double` (line 70): truncation
toward zero. C++ defines it for `-1 < x < 2 ^ 64`, where it is the floor cut
off at `0`. Outside that range the source has no defined value; the global
still holds 64 bits, the model takes `0`, and the bounds proved for the
published value assume the range. -/
def toU64 (x : ℚ) : Nat := if x < 2 ^ 64 then Int.toNat ⌊x⌋ else 0

/-- The frequency of one trial (lines 64-65):
`sec = double(ep - sp) / freq`, `tscFreq = double(tEnd - tStart) / sec`.
The difference of the two `LONGLONG` readings is taken over the integers
(signed overflow is undefined in C++), `tEnd - tStart` is unsigned; both
differences and `freq.QuadPart` are converted to `double`, and each division
is rounded. -/
def tscFreq (freq : Int) (t : Trial) : ℚ :=
  let sec : ℚ := binary64 (binary64 ((t.ep - t.sp : Int) : ℚ) / binary64 (freq : ℚ))
  binary64 (binary64 ((sub64 t.tEnd t.tStart : Nat) : ℚ) / sec)

/-- The trial loop of `InitializeTimingAndCalibrations` up to the `double`
`cps` (lines 57-69): `totFreq += tscFreq` three times from `0.0`,
`avgFreq = totFreq / its`, `cps = avgFreq / 1e9`, every operation rounded;
`its` and `1e9` are exact as `double`. -/
def cpsOfTrials (freq : Int) (trial : Nat → Trial) : ℚ :=
  let its := 3
  let totFreq : ℚ :=
    forLoop its (fun i totFreq => binary64 (totFreq + tscFreq freq (trial i))) 0
  let avgFreq : ℚ := binary64 (totFreq / (its : ℚ))
  binary64 (avgFreq / 1000000000)

/-- The value `InitializeTimingAndCalibrations` assigns to
`gCyclesPerNanosecond` (line 70): `(unsigned __int64)(cps + 0.5)`, the sum
rounded to `double`; `freq` is `freq.QuadPart`. -/
def frequencyTrials (freq : Int) (trial : Nat → Trial) : Nat :=
  let cps := cpsOfTrials freq trial
  toU64 (binary64 (cps + 1 / 2))

/-- Embeds `InitializeTimingAndCalibrations` (lines 49-72); the report that
follows writes to `std::cout` only. -/
def InitializeTimingAndCalibrations (h : Host) (st : State) : State :=
  match h.qpf with
  | none => st.log Call.MessageBoxA
  | some freq =>
    let st1 : State :=
      { (st.log Call.frequencyTrials) with
          g := { st.g with gCyclesPerNanosecond := frequencyTrials freq h.trial } }
    let st2 : State :=
      { (st1.log Call.calibrateSyscallOverheadBatched) with
          g := { st1.g with
            gSyscallOverheadCycles := calibrateSyscallOverheadBatched h.sendInputBatch } }
    let r := calibrateJitterCompensationBatched h.waitBatch
      (st2.log Call.calibrateJitterCompensationBatched)
    { r.2 with g := { r.2.g with gJitterCompensationCycles := r.1 } }

/-- The record `MidiEvent` (lines 96-100). -/
structure MidiEvent where
  note : Char
  delayNs : Nat
  velocity : Int
deriving DecidableEq

/-- Embeds `SimulateKey`: one `SendInput` of a press and a release of `vk`. -/
def SimulateKey (vk : Nat) (st : State) : State :=
  st.log (Call.SimulateKey vk)

/-- The event list of `SimulateMIDIEvents` (lines 104-119). -/
def events : List MidiEvent :=
  [ ⟨'A', 300000, 100⟩, ⟨'W', 200000, 110⟩, ⟨'S', 500000, 120⟩, ⟨'E', 250000, 90⟩,
    ⟨'D', 400000, 105⟩, ⟨'F', 350000, 115⟩, ⟨'T', 300000, 95⟩, ⟨'G', 450000, 100⟩,
    ⟨'Y', 400000, 110⟩, ⟨'H', 550000, 105⟩, ⟨'U', 300000, 115⟩, ⟨'J', 500000, 100⟩,
    ⟨'K', 600000, 120⟩, ⟨'L', 450000, 95⟩ ]

/-- Embeds `SimulateMIDIEvents` (lines 103-141): for every event a wait of
`delayNs`, then the key. -/
def SimulateMIDIEvents (st : State) : State :=
  events.foldl (fun st evt => SimulateKey evt.note.toNat (invokeWait evt.delayNs st)) st

/-- Embeds `main` (lines 143-164): initialisation, the initial delay of 1 ms,
the events. The program starts with the globals of the header. -/
def main (h : Host) : State :=
  let st := InitializeTimingAndCalibrations h ⟨Globals.atStart, []⟩
  let initDelay := 1000000
  let st := invokeWait initDelay st
  SimulateMIDIEvents st

/-! ## The wait routine -/

/-- Modelled from the spec: the cycle budget of `RDTSCInputSchedulerWait`,
whose body is not among the sources (the header only declares it).
"`targetCycles = requestedNanoseconds × cyclesPerNanosecond`; subtract
`jitterCompensationCycles`, clamped at a floor of zero"; the product is
taken in a width that does not wrap. -/
def targetCycles (g : Globals) (requestedNanoseconds : Nat) : Nat :=
  let targetCycles := requestedNanoseconds * g.gCyclesPerNanosecond
  if targetCycles ≤ g.gJitterCompensationCycles then 0
  else targetCycles - g.gJitterCompensationCycles

/-- Modelled from the spec: the spin loop of `RDTSCInputSchedulerWait`, whose
body is not among the sources. "Spin: repeatedly read the cycle counter
(`now`) until `now - start >= targetCycles`, then return." `tsc i` is reading
number `i` of the counter, `fuel` bounds the number of readings, the result is
the number of the reading at which the loop ends. -/
def spin (target start : Nat) (tsc : Nat → Nat) : Nat → Nat → Option Nat
  | 0, _ => none
  | fuel + 1, i =>
    let now := tsc i
    if sub64 now start ≥ target then some i else spin target start tsc fuel (i + 1)

/-- Modelled from the spec: `RDTSCInputSchedulerWait`, whose body is not among
the sources. "Read the cycle counter once (`start`)", reading number `0`, then
spin on the readings `1, 2, ...`. -/
def RDTSCInputSchedulerWait (g : Globals) (requestedNanoseconds : Nat)
    (tsc : Nat → Nat) (fuel : Nat) : Option Nat :=
  let target := targetCycles g requestedNanoseconds
  let start := tsc 0
  spin target start tsc fuel 1

/-! ## Quantities the statements below are about -/

/-- The `measured` of a batch (line 40): `e - s` on `unsigned __int64`. -/
def measured (r : Reads) : Nat := sub64 r.e r.s

/-- The `expected` of a batch (line 41) when `gCyclesPerNanosecond` is `c`:
`wt * gCyclesPerNanosecond * bs` on `unsigned __int64`. -/
def expected (c : Nat) : Nat := mul64 (mul64 200 c) 10

/-- What one batch adds to `totOver` (lines 42-43). -/
def overshoot (c : Nat) (r : Reads) : Nat :=
  if measured r > expected c then sub64 (measured r) (expected c) else 0

/-- The value the specification gives for the syscall calibrator: the sum of
the 50 per-batch deltas divided by `iterations × batch size`, over the
integers. -/
def specSyscallOverhead (rd : Nat → Reads) : Nat :=
  (∑ i ∈ Finset.range 50, measured (rd i)) / (50 * 10)

/-- The value the specification gives for the jitter calibrator: the sum over
50 batches of `max(0, measuredCycles - expectedCycles)` with
`expectedCycles = targetNanoseconds × cyclesPerNanosecond × batchSize`,
divided by `iterations × batchSize`, over the integers. -/
def specJitterCompensation (c : Nat) (rd : Nat → Reads) : Int :=
  (∑ i ∈ Finset.range 50, max 0 ((measured (rd i) : Int) - 200 * (c : Int) * 10)) / 500

/-- The cycles-per-nanosecond of the specification before rounding: the
average over the three trials of `dC / (dR / F)`, divided by `1e9`. -/
def specCyclesPerNanosecond (F : Int) (trial : Nat → Trial) : ℚ :=
  ((1 / 3 : ℚ) * ∑ i ∈ Finset.range 3,
    ((sub64 (trial i).tEnd (trial i).tStart : Nat) : ℚ) /
      ((((trial i).ep - (trial i).sp : Int) : ℚ) / (F : ℚ))) / 1000000000

/-- The unit roundoff of binary64: half the spacing of the `double`s relative
to their magnitude. -/
def unitRoundoff : ℚ := 1 / 2 ^ 53

/-- The factor by which one rounded operation can move a quotient. -/
def relErr : ℚ := (1 + unitRoundoff) / (1 - unitRoundoff)

/-- The computed value `v` is the exact value `r ≥ 0` up to `k` factors
`relErr`. -/
def near (k : Nat) (v r : ℚ) : Prop := r / relErr ^ k ≤ v ∧ v ≤ r * relErr ^ k

/-! ## Sample inputs -/

/-- Batches of 700 cycles each. -/
def steadyReads : Nat → Reads := fun i => ⟨1000 * i, 1000 * i + 700⟩

/-- Batches of `2 ^ 63` cycles each. -/
def hugeReads : Nat → Reads := fun _ => ⟨0, 9223372036854775808⟩

/-- Batches of 1000 cycles each. -/
def thousandReads : Nat → Reads := fun _ => ⟨0, 1000⟩

/-- Batches of 6500 cycles each. -/
def overReads : Nat → Reads := fun _ => ⟨0, 6500⟩

/-- A state whose `gCyclesPerNanosecond` is `c`, before any call. -/
def stateWith (c : Nat) : State := ⟨⟨c, 0, 0⟩, []⟩

/-- One batch of `2 ^ 64 - 1` cycles, then batches of no cycle. -/
def spikeReads : Nat → Reads := fun i =>
  if i = 0 then ⟨0, 18446744073709551615⟩ else ⟨0, 0⟩

/-- As `spikeReads`, with one cycle more in batch 1. -/
def spikeReadsPlus : Nat → Reads := fun i =>
  if i = 0 then ⟨0, 18446744073709551615⟩ else if i = 1 then ⟨0, 1⟩ else ⟨0, 0⟩

/-- Batches of 6500 cycles, but 5000 cycles in the batches 10 to 19. -/
def mixedReads : Nat → Reads := fun i =>
  if 10 ≤ i ∧ i < 20 then ⟨0, 5000⟩ else ⟨0, 6500⟩

/-- As `mixedReads`, with exactly the expected 6000 cycles in the batches 10
to 19. -/
def mixedReadsLevel : Nat → Reads := fun i =>
  if 10 ≤ i ∧ i < 20 then ⟨0, 6000⟩ else ⟨0, 6500⟩

/-- Batches of 5000 cycles each. -/
def underReads : Nat → Reads := fun _ => ⟨0, 5000⟩

/-- A host whose counter runs at 3 GHz: the reference clock ticks at 10 MHz,
and in each trial 500000 ticks (50 ms) and 150000000 cycles elapse. -/
def fastHost : Host :=
  ⟨some 10000000, fun _ => ⟨0, 0, 150000000, 500000⟩, steadyReads, overReads⟩

/-- Three trials whose exact average is just below half a cycle per
nanosecond. -/
def tieTrial : Nat → Trial := fun i =>
  if i = 0 then ⟨0, 0, 25070882, 501437⟩
  else if i = 1 then ⟨0, 0, 24945268, 500365⟩
  else ⟨0, 0, 25149567, 501509⟩

/-- A host with the trials `tieTrial` and a reference clock of 10 MHz. -/
def tieHost : Host := ⟨some 10000000, tieTrial, steadyReads, overReads⟩

/-- A host on which `QueryPerformanceFrequency` fails. -/
def deadClockHost : Host :=
  ⟨none, fun _ => ⟨0, 0, 150000000, 500000⟩, steadyReads, overReads⟩

/-- A state left by earlier activity: other globals, one call made. -/
def staleState : State := ⟨⟨7, 8, 9⟩, [Call.SimulateKey 65]⟩

/-- Counter readings 170 cycles apart, starting at 1000. -/
def tickingCounter : Nat → Nat := fun i => 1000 + 170 * i

/-! ## Arithmetic lemmas -/

theorem U64_eq : U64 = 18446744073709551616 := by norm_num [U64]

theorem U64_pos : 0 < U64 := by rw [U64_eq]; omega

theorem sub64_lt (a b : Nat) : sub64 a b < U64 := Nat.mod_lt _ U64_pos

theorem add64_lt (a b : Nat) : add64 a b < U64 := Nat.mod_lt _ U64_pos

theorem mul64_lt (a b : Nat) : mul64 a b < U64 := Nat.mod_lt _ U64_pos

theorem sub64_of_le {a b : Nat} (hba : b ≤ a) (ha : a < U64) : sub64 a b = a - b := by
  have hb : b < U64 := lt_of_le_of_lt hba ha
  unfold sub64
  rw [Nat.mod_eq_of_lt ha, Nat.mod_eq_of_lt hb]
  have h : a + (U64 - b) = (a - b) + U64 := by omega
  rw [h, Nat.add_mod_right, Nat.mod_eq_of_lt (by omega)]

theorem measured_lt (r : Reads) : measured r < U64 := sub64_lt _ _

theorem expected_lt (c : Nat) : expected c < U64 := mul64_lt _ _

theorem expected_eq (c : Nat) : expected c = (200 * c * 10) % U64 := by
  unfold expected mul64
  rw [Nat.mod_mul_mod]

theorem overshoot_eq (c : Nat) (r : Reads) : overshoot c r = measured r - expected c := by
  unfold overshoot
  split
  · rename_i h
    exact sub64_of_le (Nat.le_of_lt h) (measured_lt r)
  · omega

theorem forLoop_zero {σ : Type} (body : Nat → σ → σ) (init : σ) :
    forLoop 0 body init = init := rfl

theorem forLoop_succ {σ : Type} (n : Nat) (body : Nat → σ → σ) (init : σ) :
    forLoop (n + 1) body init = body n (forLoop n body init) := by
  unfold forLoop
  rw [List.range_succ, List.foldl_append]
  rfl

theorem forLoop_add64 (f : Nat → Nat) (n : Nat) :
    forLoop n (fun i tot => add64 tot (f i)) 0 = (∑ i ∈ Finset.range n, f i) % U64 := by
  induction n with
  | zero => simp [forLoop_zero]
  | succ n ih =>
    rw [forLoop_succ, ih, Finset.sum_range_succ]
    unfold add64
    rw [Nat.mod_add_mod]

theorem forLoop_invokeWait (ns k : Nat) (st : State) :
    forLoop k (fun _ st => invokeWait ns st) st =
      ⟨st.g, st.calls ++ List.replicate k (Call.RDTSCInputSchedulerWait ns st.g)⟩ := by
  induction k with
  | zero => simp [forLoop_zero]
  | succ k ih =>
    rw [forLoop_succ, ih]
    simp [invokeWait, State.log, List.replicate_succ']

theorem forLoop_jitterBatch (rd : Nat → Reads) (st : State) (n : Nat) :
    forLoop n (jitterBatch rd) (0, st) =
      ((∑ i ∈ Finset.range n, overshoot st.g.gCyclesPerNanosecond (rd i)) % U64,
        ⟨st.g, st.calls ++
          List.replicate (10 * n) (Call.RDTSCInputSchedulerWait 200 st.g)⟩) := by
  induction n with
  | zero => simp [forLoop_zero]
  | succ n ih =>
    rw [forLoop_succ, ih, Finset.sum_range_succ]
    unfold jitterBatch
    simp only [forLoop_invokeWait]
    have hrep : (st.calls ++ List.replicate (10 * n) (Call.RDTSCInputSchedulerWait 200 st.g)) ++
        List.replicate 10 (Call.RDTSCInputSchedulerWait 200 st.g) =
        st.calls ++ List.replicate (10 * (n + 1)) (Call.RDTSCInputSchedulerWait 200 st.g) := by
      rw [List.append_assoc, ← List.replicate_add, Nat.mul_succ]
    rw [hrep]
    by_cases h : measured (rd n) > expected st.g.gCyclesPerNanosecond
    · have h1 : sub64 (rd n).e (rd n).s >
          mul64 (mul64 200 st.g.gCyclesPerNanosecond) 10 := h
      rw [if_pos h1]
      have ho : overshoot st.g.gCyclesPerNanosecond (rd n) =
          sub64 (sub64 (rd n).e (rd n).s) (mul64 (mul64 200 st.g.gCyclesPerNanosecond) 10) := by
        unfold overshoot; rw [if_pos h]; rfl
      rw [ho]
      unfold add64
      rw [Nat.mod_add_mod]
    · have h1 : ¬ sub64 (rd n).e (rd n).s >
          mul64 (mul64 200 st.g.gCyclesPerNanosecond) 10 := h
      rw [if_neg h1]
      have ho : overshoot st.g.gCyclesPerNanosecond (rd n) = 0 := by
        unfold overshoot; rw [if_neg h]
      rw [ho]
      simp

theorem calibrateSyscall_eq (rd : Nat → Reads) :
    calibrateSyscallOverheadBatched rd =
      (∑ i ∈ Finset.range 50, measured (rd i)) % U64 / 500 := by
  unfold calibrateSyscallOverheadBatched
  exact congrArg (· / 500) (forLoop_add64 (fun i => measured (rd i)) 50)

theorem calibrateJitter_eq (rd : Nat → Reads) (st : State) :
    calibrateJitterCompensationBatched rd st =
      ((∑ i ∈ Finset.range 50, overshoot st.g.gCyclesPerNanosecond (rd i)) % U64 / 500,
        ⟨st.g, st.calls ++ List.replicate 500 (Call.RDTSCInputSchedulerWait 200 st.g)⟩) := by
  unfold calibrateJitterCompensationBatched
  simp only [forLoop_jitterBatch]

/-! ## The per-batch delta -/

/-- C10: the delta `e - s` the calibrators compute on `unsigned __int64` is
the number `d` of elapsed cycles whenever `d < 2 ^ 64`, also when the counter
wrapped between the two reads: with `e = (s + d) mod 2 ^ 64`, the difference
`(e - s) mod 2 ^ 64` is `d`. -/
theorem delta_exact_across_wrap (s d : Nat) (hd : d < 2 ^ 64) :
    sub64 ((s + d) % 2 ^ 64) s = d ∧ measured ⟨s, (s + d) % 2 ^ 64⟩ = d := by
  have key : sub64 ((s + d) % 2 ^ 64) s = d := by
    unfold sub64
    rw [U64_eq]
    norm_num at hd ⊢
    omega
  exact ⟨key, key⟩

/-- Witness of `delta_exact_across_wrap`: the counter reads `2 ^ 64 - 1`,
wraps, and reads `4` five cycles later. -/
theorem delta_exact_across_wrap_witness :
    5 < 2 ^ 64 ∧ sub64 ((18446744073709551615 + 5) % 2 ^ 64) 18446744073709551615 = 5 :=
  ⟨by norm_num, (delta_exact_across_wrap 18446744073709551615 5 (by norm_num)).1⟩

/-! ## The syscall overhead calibrator -/

/-- C7, as stated, fails: with 50 batches of `2 ^ 63` cycles each the
accumulator `tot` wraps to `0` and the calibrator returns `0`, while the
sum of the deltas divided by `50 * 10` is `922337203685477580`. -/
theorem syscall_overhead_sum_wraps :
    calibrateSyscallOverheadBatched hugeReads = 0 ∧
      specSyscallOverhead hugeReads = 922337203685477580 ∧
      calibrateSyscallOverheadBatched hugeReads ≠ specSyscallOverhead hugeReads := by
  decide

/-- C7, amended: `calibrateSyscallOverheadBatched` is total and, for every
sequence of 50 batch readings, returns the sum of the 50 deltas `e_i - s_i`
reduced modulo `2 ^ 64` and divided by `50 * 10`; whenever that sum is below
`2 ^ 64` this is the sum divided by `50 * 10`. Each batch contributes one
pair of readings. -/
theorem syscall_overhead (rd : Nat → Reads) :
    calibrateSyscallOverheadBatched rd =
        (∑ i ∈ Finset.range 50, sub64 (rd i).e (rd i).s) % 2 ^ 64 / (50 * 10) ∧
      ((∑ i ∈ Finset.range 50, sub64 (rd i).e (rd i).s) < 2 ^ 64 →
        calibrateSyscallOverheadBatched rd =
          (∑ i ∈ Finset.range 50, sub64 (rd i).e (rd i).s) / (50 * 10)) := by
  have h : calibrateSyscallOverheadBatched rd =
      (∑ i ∈ Finset.range 50, sub64 (rd i).e (rd i).s) % 18446744073709551616 / 500 := by
    have h0 := calibrateSyscall_eq rd
    rw [U64_eq] at h0
    exact h0
  refine ⟨by rw [h]; norm_num, fun hlt => ?_⟩
  rw [h, Nat.mod_eq_of_lt (by norm_num at hlt ⊢; exact hlt)]

/-- Witness of `syscall_overhead`: 50 batches of 700 cycles give 70 cycles
per call. -/
theorem syscall_overhead_witness :
    (∑ i ∈ Finset.range 50, sub64 (steadyReads i).e (steadyReads i).s) < 2 ^ 64 ∧
      calibrateSyscallOverheadBatched steadyReads =
        (∑ i ∈ Finset.range 50, sub64 (steadyReads i).e (steadyReads i).s) / (50 * 10) :=
  ⟨by decide, (syscall_overhead steadyReads).2 (by decide)⟩

/-! ## The jitter calibrator -/

theorem max_sub_cast (a b : Nat) : max 0 ((a : Int) - (b : Int)) = ((a - b : Nat) : Int) := by
  omega

theorem sum_max_cast (c : Nat) (rd : Nat → Reads) (n : Nat) :
    (∑ i ∈ Finset.range n, max 0 ((measured (rd i) : Int) - 200 * (c : Int) * 10)) =
      ((∑ i ∈ Finset.range n, (measured (rd i) - 200 * c * 10) : Nat) : Int) := by
  rw [Nat.cast_sum]
  refine Finset.sum_congr rfl (fun i _ => ?_)
  have := max_sub_cast (measured (rd i)) (200 * c * 10)
  push_cast at this ⊢
  exact this

theorem jitter_value (rd : Nat → Reads) (st : State) :
    (calibrateJitterCompensationBatched rd st).1 =
      (∑ i ∈ Finset.range 50,
        (measured (rd i) - expected st.g.gCyclesPerNanosecond)) % U64 / 500 := by
  rw [calibrateJitter_eq]
  simp only [overshoot_eq]

/-- C5, as stated, fails: with `gCyclesPerNanosecond = 9223372036854776` the
product `200 * c * 10` wraps to `384`, every batch of 1000 cycles counts as
616 cycles of overshoot and the calibrator returns `61`, while
`max(0, 1000 - 200 * c * 10) = 0` for every batch. -/
theorem jitter_expected_wraps :
    expected 9223372036854776 = 384 ∧
      (calibrateJitterCompensationBatched thousandReads (stateWith 9223372036854776)).1 = 61 ∧
      specJitterCompensation 9223372036854776 thousandReads = 0 := by
  refine ⟨by decide, ?_, by decide⟩
  rw [jitter_value]
  decide

/-- C5, amended: for every `gCyclesPerNanosecond = c` and every sequence of 50
batch readings, `calibrateJitterCompensationBatched` returns
`(S mod 2 ^ 64) / 500`, where `S` is the sum over the 50 batches of
`max(0, measured_i - expected)`, `measured_i = e_i - s_i` and
`expected = (200 * c * 10) mod 2 ^ 64` (the subtraction of natural numbers
below is truncated at 0); whenever `200 * c * 10 < 2 ^ 64` and
the sum of the `max(0, measured_i - 200 * c * 10)` is below `2 ^ 64`, this is
that sum divided by 500. -/
theorem jitter_compensation (rd : Nat → Reads) (st : State) :
    (calibrateJitterCompensationBatched rd st).1 =
        (∑ i ∈ Finset.range 50,
          (sub64 (rd i).e (rd i).s - (200 * st.g.gCyclesPerNanosecond * 10) % 2 ^ 64))
          % 2 ^ 64 / 500 ∧
      (200 * st.g.gCyclesPerNanosecond * 10 < 2 ^ 64 →
        (∑ i ∈ Finset.range 50,
          max 0 ((sub64 (rd i).e (rd i).s : Int)
            - 200 * (st.g.gCyclesPerNanosecond : Int) * 10)) < 2 ^ 64 →
        ((calibrateJitterCompensationBatched rd st).1 : Int) =
          (∑ i ∈ Finset.range 50,
            max 0 ((sub64 (rd i).e (rd i).s : Int)
              - 200 * (st.g.gCyclesPerNanosecond : Int) * 10)) / 500) := by
  have hv := jitter_value rd st
  simp only [expected_eq, U64_eq] at hv
  refine ⟨by rw [hv]; norm_num [measured], fun hc hs => ?_⟩
  have hcast := sum_max_cast st.g.gCyclesPerNanosecond rd 50
  simp only [measured] at hcast hv
  rw [hcast] at hs ⊢
  have hc1 : 200 * st.g.gCyclesPerNanosecond * 10 < 18446744073709551616 := by
    norm_num at hc ⊢; exact hc
  have hs1 : (∑ i ∈ Finset.range 50,
      (sub64 (rd i).e (rd i).s - 200 * st.g.gCyclesPerNanosecond * 10)) <
      18446744073709551616 := by
    have : (18446744073709551616 : Int) = ((18446744073709551616 : Nat) : Int) := by norm_num
    norm_num at hs
    rw [this] at hs
    exact_mod_cast hs
  rw [hv, Nat.mod_eq_of_lt hc1, Nat.mod_eq_of_lt hs1, Int.natCast_div, Nat.cast_ofNat]

/-- Witness of `jitter_compensation`: at 3 cycles per nanosecond 50 batches of
6500 cycles overshoot the 6000 expected by 500 each, 50 cycles per call. -/
theorem jitter_compensation_witness :
    200 * (stateWith 3).g.gCyclesPerNanosecond * 10 < 2 ^ 64 ∧
      (∑ i ∈ Finset.range 50,
        max 0 ((sub64 (overReads i).e (overReads i).s : Int)
          - 200 * ((stateWith 3).g.gCyclesPerNanosecond : Int) * 10)) < 2 ^ 64 ∧
      ((calibrateJitterCompensationBatched overReads (stateWith 3)).1 : Int) =
        (∑ i ∈ Finset.range 50,
          max 0 ((sub64 (overReads i).e (overReads i).s : Int)
            - 200 * ((stateWith 3).g.gCyclesPerNanosecond : Int) * 10)) / 500 :=
  ⟨by decide, by decide,
    (jitter_compensation overReads (stateWith 3)).2 (by decide) (by decide)⟩

/-- C9, as stated, fails: at `gCyclesPerNanosecond = 0` (expected 0) the
readings `spikeReadsPlus` have at least the measured cycles of `spikeReads` in
every batch, one cycle more in batch 1, yet the accumulator wraps to `0` and
the result drops from `36893488147419103` to `0`. -/
theorem jitter_not_monotone :
    (∀ i, measured (spikeReads i) ≤ measured (spikeReadsPlus i)) ∧
      (calibrateJitterCompensationBatched spikeReads (stateWith 0)).1 = 36893488147419103 ∧
      (calibrateJitterCompensationBatched spikeReadsPlus (stateWith 0)).1 = 0 := by
  refine ⟨fun i => ?_, ?_, ?_⟩
  · simp only [spikeReads, spikeReadsPlus]
    split_ifs <;> decide
  · rw [jitter_value]; decide
  · rw [jitter_value]; decide

/-- C9, amended: in `calibrateJitterCompensationBatched`, for every
`gCyclesPerNanosecond` and all batch readings, (1) replacing batches whose
measured cycles are at most `expected` by batches with measured = expected
leaves the result unchanged, (2) the result is monotone non-decreasing in
each batch's measured cycles as long as the accumulated overshoot of the
larger readings stays below `2 ^ 64`, and (3) the result is 0 when no batch
exceeds `expected`. -/
theorem jitter_undershoot_ignored (st : State) :
    (∀ rd rd2 : Nat → Reads,
      (∀ i, i < 50 → rd2 i = rd i ∨
        (measured (rd i) ≤ expected st.g.gCyclesPerNanosecond ∧
          measured (rd2 i) = expected st.g.gCyclesPerNanosecond)) →
      (calibrateJitterCompensationBatched rd2 st).1 =
        (calibrateJitterCompensationBatched rd st).1) ∧
    (∀ rd rd2 : Nat → Reads,
      (∀ i, i < 50 → measured (rd i) ≤ measured (rd2 i)) →
      (∑ i ∈ Finset.range 50,
        (measured (rd2 i) - expected st.g.gCyclesPerNanosecond)) < 2 ^ 64 →
      (calibrateJitterCompensationBatched rd st).1 ≤
        (calibrateJitterCompensationBatched rd2 st).1) ∧
    (∀ rd : Nat → Reads,
      (∀ i, i < 50 → measured (rd i) ≤ expected st.g.gCyclesPerNanosecond) →
      (calibrateJitterCompensationBatched rd st).1 = 0) := by
  refine ⟨fun rd rd2 h => ?_, fun rd rd2 h hs => ?_, fun rd h => ?_⟩
  · rw [jitter_value, jitter_value]
    have hsum : (∑ i ∈ Finset.range 50,
        (measured (rd2 i) - expected st.g.gCyclesPerNanosecond)) =
        ∑ i ∈ Finset.range 50, (measured (rd i) - expected st.g.gCyclesPerNanosecond) := by
      refine Finset.sum_congr rfl (fun i hi => ?_)
      rcases h i (Finset.mem_range.mp hi) with h1 | ⟨h1, h2⟩
      · rw [h1]
      · omega
    rw [hsum]
  · rw [jitter_value, jitter_value]
    have hle : (∑ i ∈ Finset.range 50,
        (measured (rd i) - expected st.g.gCyclesPerNanosecond)) ≤
        ∑ i ∈ Finset.range 50, (measured (rd2 i) - expected st.g.gCyclesPerNanosecond) := by
      refine Finset.sum_le_sum (fun i hi => ?_)
      have := h i (Finset.mem_range.mp hi)
      omega
    have hs2 : (∑ i ∈ Finset.range 50,
        (measured (rd2 i) - expected st.g.gCyclesPerNanosecond)) < U64 := by
      rw [U64_eq]; norm_num at hs ⊢; exact hs
    rw [Nat.mod_eq_of_lt hs2, Nat.mod_eq_of_lt (lt_of_le_of_lt hle hs2)]
    exact Nat.div_le_div_right hle
  · rw [jitter_value]
    have hz : (∑ i ∈ Finset.range 50,
        (measured (rd i) - expected st.g.gCyclesPerNanosecond)) = 0 := by
      refine Finset.sum_eq_zero (fun i hi => ?_)
      have := h i (Finset.mem_range.mp hi)
      omega
    rw [hz]
    rfl

/-- Witness of `jitter_undershoot_ignored` at 3 cycles per nanosecond
(expected 6000): levelling the batches of 5000 cycles to 6000 keeps the
result, batches of 6500 cycles give at least the result of batches of 5000,
and batches of 5000 cycles give 0. -/
theorem jitter_undershoot_ignored_witness :
    ((∀ i, i < 50 → mixedReadsLevel i = mixedReads i ∨
        (measured (mixedReads i) ≤ expected (stateWith 3).g.gCyclesPerNanosecond ∧
          measured (mixedReadsLevel i) = expected (stateWith 3).g.gCyclesPerNanosecond)) ∧
      (calibrateJitterCompensationBatched mixedReadsLevel (stateWith 3)).1 =
        (calibrateJitterCompensationBatched mixedReads (stateWith 3)).1) ∧
    ((∀ i, i < 50 → measured (underReads i) ≤ measured (overReads i)) ∧
      (calibrateJitterCompensationBatched underReads (stateWith 3)).1 ≤
        (calibrateJitterCompensationBatched overReads (stateWith 3)).1) ∧
    ((∀ i, i < 50 → measured (underReads i) ≤ expected (stateWith 3).g.gCyclesPerNanosecond) ∧
      (calibrateJitterCompensationBatched underReads (stateWith 3)).1 = 0) :=
  ⟨⟨by decide,
      (jitter_undershoot_ignored (stateWith 3)).1 mixedReads mixedReadsLevel (by decide)⟩,
    ⟨by decide,
      (jitter_undershoot_ignored (stateWith 3)).2.1 underReads overReads (by decide)
        (by decide)⟩,
    ⟨by decide, (jitter_undershoot_ignored (stateWith 3)).2.2 underReads (by decide)⟩⟩

/-! ## Binary64 rounding -/

theorem log2Fuel_spec : ∀ fuel n, n ≤ fuel → 0 < n →
    2 ^ log2Fuel fuel n ≤ n ∧ n < 2 ^ (log2Fuel fuel n + 1) := by
  intro fuel
  induction fuel with
  | zero => intro n h1 h2; omega
  | succ fuel ih =>
    intro n h1 h2
    unfold log2Fuel
    by_cases hn : n < 2
    · rw [if_pos hn]
      have : n = 1 := by omega
      subst this
      norm_num
    · rw [if_neg hn]
      have := ih (n / 2) (by omega) (by omega)
      rw [pow_succ, pow_succ (2 : Nat) (log2Fuel fuel (n / 2) + 1)]
      omega

theorem ilog2_spec (n : Nat) (hn : 0 < n) : 2 ^ ilog2 n ≤ n ∧ n < 2 ^ (ilog2 n + 1) :=
  log2Fuel_spec n n (le_refl n) hn

theorem binade_spec (q : ℚ) (hq : q ≠ 0) :
    (2 : ℚ) ^ binade q ≤ |q| ∧ |q| < (2 : ℚ) ^ (binade q + 1) := by
  have hn : 0 < q.num.natAbs := Int.natAbs_pos.mpr (Rat.num_ne_zero.mpr hq)
  have hd : 0 < q.den := q.den_pos
  obtain ⟨hn1, hn2⟩ := ilog2_spec _ hn
  obtain ⟨hd1, hd2⟩ := ilog2_spec _ hd
  have habs : |q| = (q.num.natAbs : ℚ) / (q.den : ℚ) := by
    rw [Rat.abs_def, Rat.divInt_eq_div]
    simp [Nat.cast_natAbs]
  have hn1q : (2 : ℚ) ^ (ilog2 q.num.natAbs) ≤ (q.num.natAbs : ℚ) := by exact_mod_cast hn1
  have hn2q : (q.num.natAbs : ℚ) < (2 : ℚ) ^ (ilog2 q.num.natAbs + 1) := by exact_mod_cast hn2
  have hd1q : (2 : ℚ) ^ (ilog2 q.den) ≤ (q.den : ℚ) := by exact_mod_cast hd1
  have hd2q : (q.den : ℚ) < (2 : ℚ) ^ (ilog2 q.den + 1) := by exact_mod_cast hd2
  have hdq : (0 : ℚ) < (q.den : ℚ) := by exact_mod_cast hd
  have two_ne : (2 : ℚ) ≠ 0 := by norm_num
  unfold binade
  simp only
  split
  · rename_i h
    refine ⟨h, ?_⟩
    rw [habs, div_lt_iff₀ hdq]
    have e1 : (2 : ℚ) ^ ((ilog2 q.num.natAbs : Int) - (ilog2 q.den : Int) + 1)
        = 2 ^ (ilog2 q.num.natAbs + 1) / 2 ^ (ilog2 q.den) := by
      rw [show ((ilog2 q.num.natAbs : Int) - (ilog2 q.den : Int) + 1)
        = ((ilog2 q.num.natAbs + 1 : Nat) : Int) - ((ilog2 q.den : Nat) : Int) by push_cast; ring]
      rw [zpow_sub₀ two_ne, zpow_natCast, zpow_natCast]
    rw [e1]
    have hp : (0 : ℚ) < 2 ^ (ilog2 q.den) := by positivity
    calc (q.num.natAbs : ℚ) < 2 ^ (ilog2 q.num.natAbs + 1) := hn2q
      _ = 2 ^ (ilog2 q.num.natAbs + 1) / 2 ^ (ilog2 q.den) * 2 ^ (ilog2 q.den) := by
          field_simp
      _ ≤ 2 ^ (ilog2 q.num.natAbs + 1) / 2 ^ (ilog2 q.den) * (q.den : ℚ) := by
          gcongr
  · rename_i h
    refine ⟨?_, ?_⟩
    · rw [habs, le_div_iff₀ hdq]
      have e1 : (2 : ℚ) ^ ((ilog2 q.num.natAbs : Int) - (ilog2 q.den : Int) - 1)
          = 2 ^ (ilog2 q.num.natAbs) / 2 ^ (ilog2 q.den + 1) := by
        rw [show ((ilog2 q.num.natAbs : Int) - (ilog2 q.den : Int) - 1)
          = ((ilog2 q.num.natAbs : Nat) : Int) - ((ilog2 q.den + 1 : Nat) : Int) by
            push_cast; ring]
        rw [zpow_sub₀ two_ne, zpow_natCast, zpow_natCast]
      rw [e1]
      have hp : (0 : ℚ) < 2 ^ (ilog2 q.den + 1) := by positivity
      calc 2 ^ (ilog2 q.num.natAbs) / 2 ^ (ilog2 q.den + 1) * (q.den : ℚ)
          ≤ 2 ^ (ilog2 q.num.natAbs) / 2 ^ (ilog2 q.den + 1) * 2 ^ (ilog2 q.den + 1) := by
            gcongr
        _ = 2 ^ (ilog2 q.num.natAbs) := by field_simp
        _ ≤ (q.num.natAbs : ℚ) := hn1q
    · have : ((ilog2 q.num.natAbs : Int) - (ilog2 q.den : Int) - 1 + 1)
          = (ilog2 q.num.natAbs : Int) - (ilog2 q.den : Int) := by ring
      rw [this]
      exact lt_of_not_le h

theorem binade_eq_log (q : ℚ) (hq : q ≠ 0) : binade q = Int.log 2 |q| := by
  obtain ⟨h1, h2⟩ := binade_spec q hq
  have hpos : (0 : ℚ) < |q| := abs_pos.mpr hq
  apply le_antisymm
  · exact (Int.zpow_le_iff_le_log (by norm_num) hpos).mp (by exact_mod_cast h1)
  · have := (Int.lt_zpow_iff_log_lt (b := 2) (by norm_num) hpos).mp (by exact_mod_cast h2)
    omega

theorem roundHalfEven_err (r : ℚ) : |(roundHalfEven r : ℚ) - r| ≤ 1 / 2 := by
  unfold roundHalfEven
  have h1 := Int.floor_le r
  have h2 := Int.lt_floor_add_one r
  simp only
  split_ifs with ha hb hc <;> push_cast <;> rw [abs_le] <;> constructor <;> linarith

theorem binary64_err (q : ℚ) : |binary64 q - q| ≤ |q| / 2 ^ 53 := by
  unfold binary64
  by_cases hq : q = 0
  · simp [hq]
  · rw [if_neg hq]
    simp only
    have hlo : (2 : ℚ) ^ (binade q) ≤ |q| := (binade_spec q hq).1
    have hu : (0 : ℚ) < 2 ^ (binade q - 52) := by positivity
    have herr := roundHalfEven_err (q / 2 ^ (binade q - 52))
    have heq : (roundHalfEven (q / 2 ^ (binade q - 52)) : ℚ) * 2 ^ (binade q - 52) - q
        = ((roundHalfEven (q / 2 ^ (binade q - 52)) : ℚ) - q / 2 ^ (binade q - 52))
          * 2 ^ (binade q - 52) := by
      field_simp
    rw [heq, abs_mul, abs_of_pos hu]
    have h52 : (2 : ℚ) ^ (binade q - 52) = 2 ^ (binade q) / 2 ^ (52 : ℕ) := by
      rw [zpow_sub₀ (by norm_num)]; norm_cast
    calc |(roundHalfEven (q / 2 ^ (binade q - 52)) : ℚ) - q / 2 ^ (binade q - 52)|
          * 2 ^ (binade q - 52)
        ≤ 1 / 2 * 2 ^ (binade q - 52) := by gcongr
      _ = 2 ^ (binade q) / 2 ^ 53 := by rw [h52]; ring
      _ ≤ |q| / 2 ^ 53 := by gcongr

theorem binary64_bounds (v : ℚ) (hv : 0 ≤ v) :
    v * (1 - unitRoundoff) ≤ binary64 v ∧ binary64 v ≤ v * (1 + unitRoundoff) := by
  have h := binary64_err v
  rw [abs_of_nonneg hv, abs_le] at h
  unfold unitRoundoff
  constructor <;> linarith [h.1, h.2]


theorem relErr_facts :
    0 < relErr ∧ 1 ≤ relErr ∧ 1 + unitRoundoff ≤ relErr ∧ 1 / relErr ≤ 1 - unitRoundoff ∧
      0 < 1 - unitRoundoff := by
  norm_num [relErr, unitRoundoff]

theorem relErr_pow_pos (k : Nat) : 0 < relErr ^ k := pow_pos relErr_facts.1 k

theorem near_nonneg {k : Nat} {v r : ℚ} (hr : 0 ≤ r) (h : near k v r) : 0 ≤ v :=
  le_trans (div_nonneg hr (le_of_lt (relErr_pow_pos k))) h.1

theorem near_exact (r : ℚ) : near 0 r r := by
  unfold near
  simp

theorem near_mono {k m : Nat} {v r : ℚ} (hkm : k ≤ m) (hr : 0 ≤ r) (h : near k v r) :
    near m v r := by
  have hp : relErr ^ k ≤ relErr ^ m := pow_le_pow_right₀ relErr_facts.2.1 hkm
  have hk := relErr_pow_pos k
  constructor
  · exact le_trans (div_le_div_of_nonneg_left hr hk hp) h.1
  · exact le_trans h.2 (mul_le_mul_of_nonneg_left hp hr)

theorem near_round {k : Nat} {v r : ℚ} (hr : 0 ≤ r) (h : near k v r) :
    near (k + 1) (binary64 v) r := by
  have hv := near_nonneg hr h
  obtain ⟨b1, b2⟩ := binary64_bounds v hv
  obtain ⟨f1, f2, f3, f4, f5⟩ := relErr_facts
  have hk := relErr_pow_pos k
  constructor
  · calc r / relErr ^ (k + 1) = r / relErr ^ k * (1 / relErr) := by
          rw [pow_succ]; field_simp
      _ ≤ r / relErr ^ k * (1 - unitRoundoff) :=
          mul_le_mul_of_nonneg_left f4 (div_nonneg hr (le_of_lt hk))
      _ ≤ v * (1 - unitRoundoff) := mul_le_mul_of_nonneg_right h.1 (le_of_lt f5)
      _ ≤ binary64 v := b1
  · calc binary64 v ≤ v * (1 + unitRoundoff) := b2
      _ ≤ v * relErr := mul_le_mul_of_nonneg_left f3 hv
      _ ≤ r * relErr ^ k * relErr := mul_le_mul_of_nonneg_right h.2 (le_of_lt f1)
      _ = r * relErr ^ (k + 1) := by rw [pow_succ]; ring

theorem near_add {k : Nat} {v w r s : ℚ} (h1 : near k v r) (h2 : near k w s) :
    near k (v + w) (r + s) := by
  constructor
  · rw [add_div]; exact add_le_add h1.1 h2.1
  · rw [add_mul]; exact add_le_add h1.2 h2.2

theorem near_div {k m : Nat} {v w r s : ℚ} (hr : 0 ≤ r) (hs : 0 < s)
    (h1 : near k v r) (h2 : near m w s) : near (k + m) (v / w) (r / s) := by
  have hk := relErr_pow_pos k
  have hm := relErr_pow_pos m
  have hv := near_nonneg hr h1
  have hw : 0 < w := lt_of_lt_of_le (div_pos hs hm) h2.1
  constructor
  · calc r / s / relErr ^ (k + m) = (r / relErr ^ k) / (s * relErr ^ m) := by
          rw [pow_add, div_div, div_div]; congr 1; ring
      _ ≤ v / w := div_le_div₀ hv h1.1 hw h2.2
  · calc v / w ≤ (r * relErr ^ k) / (s / relErr ^ m) :=
          div_le_div₀ (mul_nonneg hr (le_of_lt hk)) h1.2 (div_pos hs hm) h2.1
      _ = r / s * relErr ^ (k + m) := by rw [pow_add]; field_simp; ring

theorem tscFreq_near (F : Int) (t : Trial) (hF : 0 < F) (hR : t.sp < t.ep) :
    near 5 (tscFreq F t)
      (((sub64 t.tEnd t.tStart : Nat) : ℚ) / (((t.ep - t.sp : Int) : ℚ) / (F : ℚ))) := by
  have hFq : (0 : ℚ) < (F : ℚ) := by exact_mod_cast hF
  have hRq : (0 : ℚ) < ((t.ep - t.sp : Int) : ℚ) := by exact_mod_cast sub_pos.mpr hR
  have hC : (0 : ℚ) ≤ ((sub64 t.tEnd t.tStart : Nat) : ℚ) := Nat.cast_nonneg _
  have ha := near_round (le_of_lt hRq) (near_exact _)
  have hf := near_round (le_of_lt hFq) (near_exact _)
  have hsec := near_round (le_of_lt (div_pos hRq hFq)) (near_div (le_of_lt hRq) hFq ha hf)
  have hc := near_round hC (near_exact _)
  have ht := near_round (div_nonneg hC (le_of_lt (div_pos hRq hFq)))
    (near_div hC (div_pos hRq hFq) hc hsec)
  exact ht

theorem tscFreq_ref_nonneg (F : Int) (t : Trial) (hF : 0 < F) (hR : t.sp < t.ep) :
    (0 : ℚ) ≤ ((sub64 t.tEnd t.tStart : Nat) : ℚ) / (((t.ep - t.sp : Int) : ℚ) / (F : ℚ)) := by
  have hFq : (0 : ℚ) < (F : ℚ) := by exact_mod_cast hF
  have hRq : (0 : ℚ) < ((t.ep - t.sp : Int) : ℚ) := by exact_mod_cast sub_pos.mpr hR
  exact div_nonneg (Nat.cast_nonneg _) (le_of_lt (div_pos hRq hFq))

theorem cpsOfTrials_near (F : Int) (trial : Nat → Trial) (hF : 0 < F)
    (hR : ∀ i, i < 3 → (trial i).sp < (trial i).ep) :
    near 10 (cpsOfTrials F trial) (specCyclesPerNanosecond F trial) := by
  have t0 := tscFreq_near F (trial 0) hF (hR 0 (by norm_num))
  have t1 := tscFreq_near F (trial 1) hF (hR 1 (by norm_num))
  have t2 := tscFreq_near F (trial 2) hF (hR 2 (by norm_num))
  have r0 := tscFreq_ref_nonneg F (trial 0) hF (hR 0 (by norm_num))
  have r1 := tscFreq_ref_nonneg F (trial 1) hF (hR 1 (by norm_num))
  have r2 := tscFreq_ref_nonneg F (trial 2) hF (hR 2 (by norm_num))
  have s0 := near_round (add_nonneg (le_refl 0) r0)
    (near_add (near_exact 0 |> near_mono (Nat.zero_le 5) (le_refl 0)) t0)
  have s1 := near_round (add_nonneg (add_nonneg (le_refl 0) r0) r1)
    (near_add s0 (near_mono (by norm_num) r1 t1))
  have s2 := near_round (add_nonneg (add_nonneg (add_nonneg (le_refl 0) r0) r1) r2)
    (near_add s1 (near_mono (by norm_num) r2 t2))
  have hsum := add_nonneg (add_nonneg (add_nonneg (le_refl (0 : ℚ)) r0) r1) r2
  have avg := near_round (div_nonneg hsum (by norm_num : (0 : ℚ) ≤ 3))
    (near_div hsum (by norm_num : (0 : ℚ) < 3) s2 (near_exact 3))
  have cps := near_round
    (div_nonneg (div_nonneg hsum (by norm_num : (0 : ℚ) ≤ 3))
      (by norm_num : (0 : ℚ) ≤ 1000000000))
    (near_div (div_nonneg hsum (by norm_num : (0 : ℚ) ≤ 3))
      (by norm_num : (0 : ℚ) < 1000000000) avg (near_exact 1000000000))
  have hx : specCyclesPerNanosecond F trial =
      (0 + ((sub64 (trial 0).tEnd (trial 0).tStart : Nat) : ℚ) /
            ((((trial 0).ep - (trial 0).sp : Int) : ℚ) / (F : ℚ)) +
          ((sub64 (trial 1).tEnd (trial 1).tStart : Nat) : ℚ) /
            ((((trial 1).ep - (trial 1).sp : Int) : ℚ) / (F : ℚ)) +
          ((sub64 (trial 2).tEnd (trial 2).tStart : Nat) : ℚ) /
            ((((trial 2).ep - (trial 2).sp : Int) : ℚ) / (F : ℚ))) / 3 / 1000000000 := by
    unfold specCyclesPerNanosecond
    rw [Finset.sum_range_succ, Finset.sum_range_succ, Finset.sum_range_one]
    ring
  rw [hx]
  have hc : cpsOfTrials F trial =
      binary64 (binary64 (binary64 (binary64 (binary64 (0 + tscFreq F (trial 0))
        + tscFreq F (trial 1)) + tscFreq F (trial 2)) / 3) / 1000000000) := by
    unfold cpsOfTrials
    simp only [forLoop_succ, forLoop_zero]
    norm_num
  rw [hc]
  exact cps


theorem specCyclesPerNanosecond_nonneg (F : Int) (trial : Nat → Trial) (hF : 0 < F)
    (hR : ∀ i, i < 3 → (trial i).sp < (trial i).ep) :
    0 ≤ specCyclesPerNanosecond F trial := by
  unfold specCyclesPerNanosecond
  have hsum : (0 : ℚ) ≤ ∑ i ∈ Finset.range 3,
      ((sub64 (trial i).tEnd (trial i).tStart : Nat) : ℚ) /
        ((((trial i).ep - (trial i).sp : Int) : ℚ) / (F : ℚ)) :=
    Finset.sum_nonneg (fun i hi => tscFreq_ref_nonneg F (trial i) hF
      (hR i (Finset.mem_range.mp hi)))
  positivity

theorem relErr_pow_ten : relErr ^ 10 ≤ 1 + 1 / 2 ^ 48 ∧ 1 - 1 / 2 ^ 48 ≤ 1 / relErr ^ 10 := by
  norm_num [relErr, unitRoundoff]

theorem cpsOfTrials_bounds (F : Int) (trial : Nat → Trial) (hF : 0 < F)
    (hR : ∀ i, i < 3 → (trial i).sp < (trial i).ep) :
    specCyclesPerNanosecond F trial * (1 - 1 / 2 ^ 48) ≤ cpsOfTrials F trial ∧
      cpsOfTrials F trial ≤ specCyclesPerNanosecond F trial * (1 + 1 / 2 ^ 48) := by
  have hx := specCyclesPerNanosecond_nonneg F trial hF hR
  obtain ⟨h1, h2⟩ := cpsOfTrials_near F trial hF hR
  obtain ⟨p1, p2⟩ := relErr_pow_ten
  constructor
  · calc specCyclesPerNanosecond F trial * (1 - 1 / 2 ^ 48)
        ≤ specCyclesPerNanosecond F trial * (1 / relErr ^ 10) :=
          mul_le_mul_of_nonneg_left p2 hx
      _ = specCyclesPerNanosecond F trial / relErr ^ 10 := by rw [mul_one_div]
      _ ≤ cpsOfTrials F trial := h1
  · exact le_trans h2 (mul_le_mul_of_nonneg_left p1 hx)

theorem frequencyTrials_bounds (F : Int) (trial : Nat → Trial) (hF : 0 < F)
    (hR : ∀ i, i < 3 → (trial i).sp < (trial i).ep)
    (hx : specCyclesPerNanosecond F trial < 2 ^ 63) :
    ((frequencyTrials F trial : Nat) : Int) = ⌊binary64 (cpsOfTrials F trial + 1 / 2)⌋ ∧
      (specCyclesPerNanosecond F trial * (1 - 1 / 2 ^ 48) + 1 / 2) * (1 - 1 / 2 ^ 53) - 1
        < (frequencyTrials F trial : ℚ) ∧
      (frequencyTrials F trial : ℚ)
        ≤ (specCyclesPerNanosecond F trial * (1 + 1 / 2 ^ 48) + 1 / 2) * (1 + 1 / 2 ^ 53) := by
  have hx0 := specCyclesPerNanosecond_nonneg F trial hF hR
  obtain ⟨c1, c2⟩ := cpsOfTrials_bounds F trial hF hR
  have hc0 : 0 ≤ cpsOfTrials F trial := le_trans (mul_nonneg hx0 (by norm_num)) c1
  obtain ⟨b1, b2⟩ := binary64_bounds (cpsOfTrials F trial + 1 / 2) (by linarith)
  unfold unitRoundoff at b1 b2
  have hy0 : 0 ≤ binary64 (cpsOfTrials F trial + 1 / 2) :=
    le_trans (mul_nonneg (by linarith) (by norm_num)) b1
  have hlo : (specCyclesPerNanosecond F trial * (1 - 1 / 2 ^ 48) + 1 / 2) * (1 - 1 / 2 ^ 53)
      ≤ binary64 (cpsOfTrials F trial + 1 / 2) :=
    le_trans (mul_le_mul_of_nonneg_right (by linarith) (by norm_num)) b1
  have hhi : binary64 (cpsOfTrials F trial + 1 / 2)
      ≤ (specCyclesPerNanosecond F trial * (1 + 1 / 2 ^ 48) + 1 / 2) * (1 + 1 / 2 ^ 53) :=
    le_trans b2 (mul_le_mul_of_nonneg_right (by linarith) (by norm_num))
  have hy64 : binary64 (cpsOfTrials F trial + 1 / 2) < 2 ^ 64 := by
    refine lt_of_le_of_lt hhi ?_
    norm_num at hx ⊢
    linarith
  have hfl : 0 ≤ ⌊binary64 (cpsOfTrials F trial + 1 / 2)⌋ := Int.floor_nonneg.mpr hy0
  have hpub : ((frequencyTrials F trial : Nat) : Int)
      = ⌊binary64 (cpsOfTrials F trial + 1 / 2)⌋ := by
    unfold frequencyTrials toU64
    simp only
    rw [if_pos hy64]
    exact Int.toNat_of_nonneg hfl
  have hpubq : (frequencyTrials F trial : ℚ)
      = ((⌊binary64 (cpsOfTrials F trial + 1 / 2)⌋ : Int) : ℚ) := by
    rw [← hpub]; push_cast; rfl
  have f1 := Int.floor_le (binary64 (cpsOfTrials F trial + 1 / 2))
  have f2 := Int.lt_floor_add_one (binary64 (cpsOfTrials F trial + 1 / 2))
  refine ⟨hpub, ?_, ?_⟩
  · rw [hpubq]; linarith
  · rw [hpubq]; linarith

theorem tieHost_rate : specCyclesPerNanosecond 10000000 tieHost.trial =
    18874405897946706749 / 37748811795893413500 := by
  simp [specCyclesPerNanosecond, tieHost, tieTrial, Finset.sum_range_succ, sub64, U64_eq]
  norm_num

theorem fastHost_cycles : frequencyTrials 10000000 fastHost.trial = 3 := by
  decide!

/-! ## Initialisation -/

theorem init_none (h : Host) (st : State) (hq : h.qpf = none) :
    InitializeTimingAndCalibrations h st = ⟨st.g, st.calls ++ [Call.MessageBoxA]⟩ := by
  unfold InitializeTimingAndCalibrations
  rw [hq]
  rfl

theorem init_some (h : Host) (st : State) (F : Int) (hq : h.qpf = some F) :
    InitializeTimingAndCalibrations h st =
      ⟨⟨frequencyTrials F h.trial, calibrateSyscallOverheadBatched h.sendInputBatch,
          (∑ i ∈ Finset.range 50,
            (measured (h.waitBatch i) - expected (frequencyTrials F h.trial))) % U64 / 500⟩,
        st.calls ++ [Call.frequencyTrials, Call.calibrateSyscallOverheadBatched,
            Call.calibrateJitterCompensationBatched] ++
          List.replicate 500 (Call.RDTSCInputSchedulerWait 200
            ⟨frequencyTrials F h.trial, calibrateSyscallOverheadBatched h.sendInputBatch,
              st.g.gJitterCompensationCycles⟩)⟩ := by
  unfold InitializeTimingAndCalibrations
  rw [hq]
  simp only [calibrateJitter_eq, overshoot_eq, State.log]
  simp only [List.append_assoc, List.singleton_append, List.cons_append, List.nil_append]

/-- C2: when `QueryPerformanceFrequency` fails, `InitializeTimingAndCalibrations`
leaves the three globals at the values they had before the call, for every
prior state, and runs no calibrator: the only call it adds is the error
message box. -/
theorem init_failure_publishes_nothing (h : Host) (st : State) (hq : h.qpf = none) :
    (InitializeTimingAndCalibrations h st).g.gCyclesPerNanosecond =
        st.g.gCyclesPerNanosecond ∧
      (InitializeTimingAndCalibrations h st).g.gSyscallOverheadCycles =
        st.g.gSyscallOverheadCycles ∧
      (InitializeTimingAndCalibrations h st).g.gJitterCompensationCycles =
        st.g.gJitterCompensationCycles ∧
      (InitializeTimingAndCalibrations h st).calls = st.calls ++ [Call.MessageBoxA] := by
  rw [init_none h st hq]
  exact ⟨rfl, rfl, rfl, rfl⟩

/-- Witness of `init_failure_publishes_nothing`: the globals 7, 8, 9 of
`staleState` survive a failed initialisation. -/
theorem init_failure_publishes_nothing_witness :
    deadClockHost.qpf = none ∧
      (InitializeTimingAndCalibrations deadClockHost staleState).g = ⟨7, 8, 9⟩ ∧
      (InitializeTimingAndCalibrations deadClockHost staleState).calls =
        [Call.SimulateKey 65, Call.MessageBoxA] := by
  have h := init_failure_publishes_nothing deadClockHost staleState rfl
  exact ⟨rfl, by decide, h.2.2.2⟩

/-- C8: a successful `InitializeTimingAndCalibrations` runs, in this order,
the frequency trials, the syscall calibrator and the jitter calibrator;
the jitter calibrator works with the `gCyclesPerNanosecond` this
initialisation wrote (its 500 waits see it, and its result is the one it
gives on any state holding that value), whatever the value before the call;
the final globals are exactly the three results. -/
theorem init_runs_calibrators_in_order (h : Host) (st : State) (F : Int)
    (hq : h.qpf = some F) :
    (InitializeTimingAndCalibrations h st).g =
        ⟨frequencyTrials F h.trial,
          calibrateSyscallOverheadBatched h.sendInputBatch,
          (calibrateJitterCompensationBatched h.waitBatch
            (stateWith (frequencyTrials F h.trial))).1⟩ ∧
      (∀ st2 : State, st2.g.gCyclesPerNanosecond = frequencyTrials F h.trial →
        (InitializeTimingAndCalibrations h st).g.gJitterCompensationCycles =
          (calibrateJitterCompensationBatched h.waitBatch st2).1) ∧
      (InitializeTimingAndCalibrations h st).calls =
        st.calls ++ [Call.frequencyTrials, Call.calibrateSyscallOverheadBatched,
            Call.calibrateJitterCompensationBatched] ++
          List.replicate 500 (Call.RDTSCInputSchedulerWait 200
            ⟨frequencyTrials F h.trial, calibrateSyscallOverheadBatched h.sendInputBatch,
              st.g.gJitterCompensationCycles⟩) := by
  rw [init_some h st F hq]
  refine ⟨?_, fun st2 h2 => ?_, rfl⟩
  · rw [jitter_value]; rfl
  · rw [jitter_value, h2]

/-- Witness of `init_runs_calibrators_in_order`: on `fastHost`, from a state
whose globals were 7, 8, 9, the final globals are the three fresh results 3,
70 and 50; the jitter result 50 is the one for 3 cycles per nanosecond. -/
theorem init_runs_calibrators_in_order_witness :
    fastHost.qpf = some 10000000 ∧
      (InitializeTimingAndCalibrations fastHost staleState).g = ⟨3, 70, 50⟩ := by
  refine ⟨rfl, ?_⟩
  rw [(init_runs_calibrators_in_order fastHost staleState 10000000 rfl).1, fastHost_cycles]
  have h1 : calibrateSyscallOverheadBatched fastHost.sendInputBatch = 70 := by decide
  have h2 : (calibrateJitterCompensationBatched fastHost.waitBatch (stateWith 3)).1 = 50 := by
    rw [jitter_value]; decide
  rw [h1, h2]

/-! ## The published cycles per nanosecond -/

theorem published_cycles (h : Host) (st : State) (F : Int) (hq : h.qpf = some F) :
    (InitializeTimingAndCalibrations h st).g.gCyclesPerNanosecond =
      frequencyTrials F h.trial := by
  rw [init_some h st F hq]

/-- C6, as stated, fails: on `tieHost` every reference-clock delta is
positive and the exact rate `x` is just below `1/2`, so `floor(x + 1/2) = 0`;
the `double` `cps` of line 69 is rounded to exactly `0.5`, the initialisation
publishes `gCyclesPerNanosecond = 1`, and `1` differs from `x` by more than
`1/2`. -/
theorem rounding_breaks_nearest :
    tieHost.qpf = some 10000000 ∧
      (∀ i, (tieHost.trial i).sp < (tieHost.trial i).ep) ∧
      cpsOfTrials 10000000 tieHost.trial = 1 / 2 ∧
      (InitializeTimingAndCalibrations tieHost ⟨Globals.atStart, []⟩).g.gCyclesPerNanosecond
        = 1 ∧
      ⌊specCyclesPerNanosecond 10000000 tieHost.trial + 1 / 2⌋ = 0 ∧
      ¬ |((InitializeTimingAndCalibrations tieHost
            ⟨Globals.atStart, []⟩).g.gCyclesPerNanosecond : ℚ) -
          specCyclesPerNanosecond 10000000 tieHost.trial| ≤ 1 / 2 := by
  have hpub : (InitializeTimingAndCalibrations tieHost
      ⟨Globals.atStart, []⟩).g.gCyclesPerNanosecond = 1 := by
    rw [published_cycles tieHost _ 10000000 rfl]
    decide!
  refine ⟨rfl, fun i => ?_, by decide!, hpub, ?_, ?_⟩
  · simp only [tieHost, tieTrial]
    split_ifs <;> decide
  · rw [tieHost_rate]
    norm_num [Int.floor_eq_iff]
  · rw [hpub, tieHost_rate]
    norm_num [abs_le]

/-- C6, amended: with the three trials' cycle deltas, reference-clock deltas
and ticks per second `F` positive 64-bit values and
`x = ((1/3) * sum_i dC_i / (dR_i / F)) / 1e9 < 2 ^ 63` in exact arithmetic, a
successful initialisation sets `gCyclesPerNanosecond` to the floor of the
`double` sum `cps + 0.5`, where `cps` is computed in `double` and lies within
`x / 2 ^ 48` of `x`; the published value differs from `x` by at most
`1/2 + (x + 1) / 2 ^ 47`. -/
theorem published_cycles_near_rate (h : Host) (st : State) (F : Int)
    (hq : h.qpf = some F) (hF : 0 < F) (_hF64 : F < 2 ^ 63)
    (hR : ∀ i, i < 3 → (h.trial i).sp < (h.trial i).ep)
    (_hR64 : ∀ i, i < 3 → (h.trial i).ep - (h.trial i).sp < 2 ^ 63)
    (hx : specCyclesPerNanosecond F h.trial < 2 ^ 63) :
    ((InitializeTimingAndCalibrations h st).g.gCyclesPerNanosecond : Int) =
        ⌊binary64 (cpsOfTrials F h.trial + 1 / 2)⌋ ∧
      |cpsOfTrials F h.trial - specCyclesPerNanosecond F h.trial|
        ≤ specCyclesPerNanosecond F h.trial / 2 ^ 48 ∧
      |((InitializeTimingAndCalibrations h st).g.gCyclesPerNanosecond : ℚ) -
        specCyclesPerNanosecond F h.trial|
        ≤ 1 / 2 + (specCyclesPerNanosecond F h.trial + 1) / 2 ^ 47 := by
  have hx0 := specCyclesPerNanosecond_nonneg F h.trial hF hR
  rw [published_cycles h st F hq]
  obtain ⟨h0, h1, h2⟩ := frequencyTrials_bounds F h.trial hF hR hx
  obtain ⟨c1, c2⟩ := cpsOfTrials_bounds F h.trial hF hR
  refine ⟨h0, ?_, ?_⟩
  · rw [abs_le]
    constructor <;> linarith
  · rw [abs_le]
    constructor <;> norm_num at h1 h2 ⊢ <;> linarith

/-- Witness of `published_cycles_near_rate`: on `tieHost` the published value
1 is within `1/2 + (x + 1) / 2 ^ 47` of the rate `x`. -/
theorem published_cycles_near_rate_witness :
    tieHost.qpf = some 10000000 ∧ (0 : Int) < 10000000 ∧ (10000000 : Int) < 2 ^ 63 ∧
      (∀ i, i < 3 → (tieHost.trial i).sp < (tieHost.trial i).ep) ∧
      (∀ i, i < 3 → (tieHost.trial i).ep - (tieHost.trial i).sp < 2 ^ 63) ∧
      specCyclesPerNanosecond 10000000 tieHost.trial < 2 ^ 63 ∧
      |((InitializeTimingAndCalibrations tieHost staleState).g.gCyclesPerNanosecond : ℚ) -
        specCyclesPerNanosecond 10000000 tieHost.trial|
        ≤ 1 / 2 + (specCyclesPerNanosecond 10000000 tieHost.trial + 1) / 2 ^ 47 :=
  ⟨rfl, by decide, by decide, by decide, by decide, by rw [tieHost_rate]; norm_num,
    (published_cycles_near_rate tieHost staleState 10000000 rfl (by decide) (by decide)
      (by decide) (by decide) (by rw [tieHost_rate]; norm_num)).2.2⟩

/-! ## The program -/

/-- C3: the run of `main` on a host whose `QueryPerformanceFrequency` fails.
The initialisation shows the error box and returns; `main` goes on and calls
`RDTSCInputSchedulerWait(1000000)`, then the wait of every event, each with
`gCyclesPerNanosecond = 0`. -/
theorem main_waits_after_failed_init :
    deadClockHost.qpf = none ∧
      (main deadClockHost).calls.take 2 =
        [Call.MessageBoxA, Call.RDTSCInputSchedulerWait 1000000 ⟨0, 0, 0⟩] ∧
      (∀ evt ∈ events,
        Call.RDTSCInputSchedulerWait evt.delayNs ⟨0, 0, 0⟩ ∈ (main deadClockHost).calls) := by
  refine ⟨rfl, by decide, by decide⟩

/-! ## The wait routine -/

theorem spin_eq_some (target start : Nat) (tsc : Nat → Nat) (fuel : Nat) :
    ∀ i k, spin target start tsc fuel i = some k ↔
      (i ≤ k ∧ k < i + fuel ∧ target ≤ sub64 (tsc k) start ∧
        ∀ j, i ≤ j → j < k → sub64 (tsc j) start < target) := by
  induction fuel with
  | zero =>
    intro i k
    simp only [spin]
    constructor
    · intro h; cases h
    · rintro ⟨h1, h2, _⟩; omega
  | succ fuel ih =>
    intro i k
    simp only [spin]
    by_cases hi : target ≤ sub64 (tsc i) start
    · rw [if_pos hi]
      constructor
      · intro h
        have hk : i = k := Option.some.inj h
        subst hk
        exact ⟨le_refl _, by omega, hi, fun j h1 h2 => by omega⟩
      · rintro ⟨h1, _, _, h4⟩
        rcases Nat.eq_or_lt_of_le h1 with h | h
        · rw [h]
        · have := h4 i (le_refl _) h
          omega
    · rw [if_neg hi, ih (i + 1) k]
      constructor
      · rintro ⟨h1, h2, h3, h4⟩
        refine ⟨by omega, by omega, h3, fun j hj1 hj2 => ?_⟩
        rcases Nat.eq_or_lt_of_le hj1 with h | h
        · rw [← h]; omega
        · exact h4 j h hj2
      · rintro ⟨h1, h2, h3, h4⟩
        have hne : i ≠ k := fun h => hi (h ▸ h3)
        exact ⟨by omega, by omega, h3, fun j hj1 hj2 => h4 j (by omega) hj2⟩

/-- C1: for every requested duration `ns` and all published constants,
`RDTSCInputSchedulerWait(ns)` uses the cycle budget
`max(0, ns * cyclesPerNanosecond - jitterCompensationCycles)`; it returns at
reading number `k` exactly when `k` is the first reading `now` after `start`
with `now - start >= budget` (and the readings allowed reach `k`); for
`ns = 0` the budget is 0 and the call returns on the first reading. -/
theorem wait_returns_at_first_reading (g : Globals) (ns : Nat) (tsc : Nat → Nat)
    (fuel k : Nat) :
    ((targetCycles g ns : Int) =
        max 0 ((ns : Int) * (g.gCyclesPerNanosecond : Int)
          - (g.gJitterCompensationCycles : Int))) ∧
      (RDTSCInputSchedulerWait g ns tsc fuel = some k ↔
        (1 ≤ k ∧ k ≤ fuel ∧ targetCycles g ns ≤ sub64 (tsc k) (tsc 0) ∧
          ∀ j, 1 ≤ j → j < k → sub64 (tsc j) (tsc 0) < targetCycles g ns)) ∧
      targetCycles g 0 = 0 ∧
      RDTSCInputSchedulerWait g 0 tsc (fuel + 1) = some 1 := by
  have hb : ∀ n : Nat, ((targetCycles g n : Nat) : Int) =
      max 0 ((n : Int) * (g.gCyclesPerNanosecond : Int)
        - (g.gJitterCompensationCycles : Int)) := by
    intro n
    unfold targetCycles
    simp only
    have hm : ((n * g.gCyclesPerNanosecond : Nat) : Int) =
        (n : Int) * (g.gCyclesPerNanosecond : Int) := by push_cast; rfl
    split <;> omega
  have h0 : targetCycles g 0 = 0 := by
    simp [targetCycles]
  refine ⟨hb ns, ?_, h0, ?_⟩
  · unfold RDTSCInputSchedulerWait
    simp only
    rw [spin_eq_some]
    constructor
    · rintro ⟨h1, h2, h3, h4⟩
      exact ⟨h1, by omega, h3, h4⟩
    · rintro ⟨h1, h2, h3, h4⟩
      exact ⟨h1, by omega, h3, h4⟩
  · unfold RDTSCInputSchedulerWait
    simp only
    rw [spin_eq_some, h0]
    exact ⟨le_refl _, by omega, Nat.zero_le _, fun j h1 h2 => by omega⟩

/-- Witness of `wait_returns_at_first_reading`: at 3 cycles per nanosecond
and 100 cycles of compensation a wait of 200 ns has a budget of 500 cycles;
on a counter read every 170 cycles it returns at the third reading. -/
theorem wait_returns_at_first_reading_witness :
    targetCycles ⟨3, 0, 100⟩ 200 = 500 ∧
      RDTSCInputSchedulerWait ⟨3, 0, 100⟩ 200 tickingCounter 10 = some 3 :=
  ⟨by decide,
    (wait_returns_at_first_reading ⟨3, 0, 100⟩ 200 tickingCounter 10 3).2.1.mpr
      ⟨by decide, by decide, by decide, fun j h1 h2 => by
        have hj : j = 1 ∨ j = 2 := by omega
        rcases hj with rfl | rfl <;> decide⟩⟩

end RDTSC
